import Mathlib

/-!
Verification development for the pomospace timer core.

The embedding follows the inline timer implementation in
src/src/components/PomodoroTimer.tsx (the variant whose state lives in the
component itself: useState variables timeRemaining, isActive,
completedPomodoros, timerStates, the intervalRef interval, and the
useEffect blocks), and the persistence helpers in
src/src/utils/localStorageUtils.ts.

React effect semantics are flattened: every user or system event is one
atomic transition consisting of the triggering state change followed by the
useEffect bodies it causes to re-run, in declaration order, with the usual
rule that the last queued setState for a variable wins in the next render.
Ticks of the setInterval callback are explicit events; sound playback and
writes to localStorage that do not feed back into the component state are
not modelled (they are noted in comments where they occur in the source).
-/

namespace Machine

/-- The three timer kinds; the source uses the strings "pomodoro",
"shortBreak" and "longBreak" for them. -/
inductive Mode where
  | pomodoro
  | shortBreak
  | longBreak
deriving DecidableEq, Repr

/-- One entry of the per-kind timerStates object:
{ timeRemaining: number; isActive: boolean }. -/
structure Slot where
  timeRemaining : Nat
  isActive : Bool
deriving DecidableEq, Repr

/-- The timerStates object with one slot per kind. -/
structure TimerStates where
  pomodoro : Slot
  shortBreak : Slot
  longBreak : Slot
deriving DecidableEq, Repr

def TimerStates.get (ts : TimerStates) : Mode → Slot
  | .pomodoro => ts.pomodoro
  | .shortBreak => ts.shortBreak
  | .longBreak => ts.longBreak

def TimerStates.set (ts : TimerStates) : Mode → Slot → TimerStates
  | .pomodoro, sl => { ts with pomodoro := sl }
  | .shortBreak, sl => { ts with shortBreak := sl }
  | .longBreak, sl => { ts with longBreak := sl }

/-- The settings consumed by the component: timerDurations in minutes plus
longBreakInterval (the other fields of the Settings interface do not feed
the timer state machine). -/
structure Settings where
  pomodoro : Nat
  shortBreak : Nat
  longBreak : Nat
  longBreakInterval : Nat
deriving DecidableEq, Repr

/-- getDuration of PomodoroTimer.tsx: duration in seconds for a mode.
The source switches on the mode string with a default case returning the
pomodoro duration; with the Mode type the three cases are exhaustive. -/
def getDuration (mode : Mode) (settings : Settings) : Nat :=
  match mode with
  | .pomodoro => settings.pomodoro * 60
  | .shortBreak => settings.shortBreak * 60
  | .longBreak => settings.longBreak * 60

/-- The component state after effects have quiesced: the useState variables,
the timerMode prop, whether the intervalRef holds a live interval, and the
settings prop currently passed in. -/
structure CompState where
  timerMode : Mode
  timeRemaining : Nat
  isActive : Bool
  completedPomodoros : Nat
  timerStates : TimerStates
  intervalActive : Bool
  settings : Settings
deriving DecidableEq, Repr

/-- toggleTimer: setIsActive(!isActive); then the [isActive] effect writes
timerStates[timerMode] := { timeRemaining, isActive }, and the interval
effect re-runs: an interval exists afterwards iff isActive and
timeRemaining > 0. -/
def toggleTimer (s : CompState) : CompState :=
  let active := !s.isActive
  { s with
    isActive := active
    timerStates := s.timerStates.set s.timerMode ⟨s.timeRemaining, active⟩
    intervalActive := active && decide (0 < s.timeRemaining) }

/-- resetTimer: setIsActive(false); setTimeRemaining(getDuration(timerMode)).
The [isActive] effect only re-runs when isActive actually changed; the
interval effect leaves no interval since isActive is false. -/
def resetTimer (s : CompState) : CompState :=
  let rem := getDuration s.timerMode s.settings
  let states :=
    if s.isActive then s.timerStates.set s.timerMode ⟨rem, false⟩
    else s.timerStates
  { s with
    isActive := false
    timeRemaining := rem
    timerStates := states
    intervalActive := false }

/-- The [timerMode] effect body applied after the timerMode prop changed to
the current value of s.timerMode: clearInterval; load
timerStates[timerMode] into timeRemaining; setIsActive(false); write
timerStates[timerMode] := { timeRemaining || getDuration(timerMode), false };
then, when isActive was previously true, the [isActive] effect re-runs and
writes timerStates[timerMode] := { timeRemaining, false }. -/
def timerModeEffect (s : CompState) : CompState :=
  let entry := s.timerStates.get s.timerMode
  let stored := if entry.timeRemaining = 0 then getDuration s.timerMode s.settings
                else entry.timeRemaining
  let wasActive := s.isActive
  let states1 := s.timerStates.set s.timerMode ⟨stored, false⟩
  let states2 :=
    if wasActive then states1.set s.timerMode ⟨entry.timeRemaining, false⟩
    else states1
  { s with
    timeRemaining := entry.timeRemaining
    isActive := false
    timerStates := states2
    intervalActive := false }

/-- setTimerMode(newMode) from the buttons or from completion: when the
prop value is unchanged no render happens and no effect runs; otherwise the
[timerMode] effect runs. -/
def changeTimerMode (s : CompState) (m : Mode) : CompState :=
  if m = s.timerMode then s
  else timerModeEffect { s with timerMode := m }

/-- Events observable outside the component state. The notify event is the
invocation of the onPomodoroComplete callback; it records the value the
isActive flag has at the moment the callback runs. Sound playback
(playAlarmSound) is a pure side channel and is not recorded. -/
inductive Ev where
  | notify (runningFlagAtCall : Bool)
deriving DecidableEq, Repr

/-- One firing of the setInterval callback (the interval effect, lines
509-608). Returns none when no interval is live, since then no callback can
fire. On prev <= 1 the completion branch runs: clearInterval, alarm,
for a pomodoro increment completedPomodoros and call onPomodoroComplete,
reset the completed slot to full duration, then setTimerMode(nextMode)
which triggers the [timerMode] effect. Otherwise the counter is
decremented by one. -/
def tickStep (s : CompState) : Option (CompState × List Ev) :=
  if s.intervalActive = false then none
  else some <|
    if s.timeRemaining ≤ 1 then
      let isPomo := s.timerMode = .pomodoro
      let completed := if isPomo then s.completedPomodoros + 1 else s.completedPomodoros
      let evs : List Ev := if isPomo then [.notify s.isActive] else []
      let nextMode : Mode :=
        if isPomo then
          if completed % s.settings.longBreakInterval = 0 then .longBreak else .shortBreak
        else .pomodoro
      let s1 : CompState :=
        { s with
          completedPomodoros := completed
          timerStates := s.timerStates.set s.timerMode
            ⟨getDuration s.timerMode s.settings, false⟩
          timeRemaining := 0
          intervalActive := false }
      (changeTimerMode s1 nextMode, evs)
    else
      ({ s with
         timeRemaining := s.timeRemaining - 1
         intervalActive := s.isActive && decide (0 < s.timeRemaining - 1) }, [])

/-- Apply the tick event: a callback firing when no interval is live is
impossible, so the state is unchanged in that case. -/
def tick (s : CompState) : CompState :=
  match tickStep s with
  | some (s', _) => s'
  | none => s

/-- Iterated ticks. -/
def tickN (s : CompState) : Nat → CompState
  | 0 => s
  | n + 1 => tickN (tick s) n

/-- One per-kind update of the settings-change effect (lines 629-683).
newFullDuration is getDuration(mode, settings); the source computes
oldFullDuration as getDuration(mode, { ...settings, timerDurations:
{ ...settings.timerDurations } }) - a spread copy of the NEW settings, so
the two values are always equal. Math.max(0, oldFull - rem) and
Math.max(1, newFull - elapsed) coincide with truncated Nat subtraction
followed by the outer max. -/
def settingsSlotUpdate (settings : Settings) (mode : Mode) (currentState : Slot) : Slot :=
  let newFullDuration := getDuration mode settings
  let oldFullDuration := getDuration mode settings
  if currentState.isActive || decide (currentState.timeRemaining < oldFullDuration) then
    let elapsedTime := oldFullDuration - currentState.timeRemaining
    { currentState with timeRemaining := max 1 (newFullDuration - elapsedTime) }
  else
    { currentState with timeRemaining := newFullDuration }

/-- The settings-change effect over the three kinds, in source order. -/
def settingsStatesUpdate (settings : Settings) (ts : TimerStates) : TimerStates :=
  ⟨settingsSlotUpdate settings .pomodoro ts.pomodoro,
   settingsSlotUpdate settings .shortBreak ts.shortBreak,
   settingsSlotUpdate settings .longBreak ts.longBreak⟩

/-- A settings edit: the settings prop changes and the
[settings.timerDurations] effect runs. Inside its forEach the loop variable
is also named timerMode, shadowing the component prop, so the check
(mode === timerMode) guarding setTimeRemaining is true on every iteration
and the last iteration (longBreak) determines the displayed time. The
interval effect then re-runs against the new displayed value. -/
def settingsChange (s : CompState) (settings' : Settings) : CompState :=
  let updated := settingsStatesUpdate settings' s.timerStates
  let displayed := updated.longBreak.timeRemaining
  { s with
    settings := settings'
    timerStates := updated
    timeRemaining := displayed
    intervalActive := s.isActive && decide (0 < displayed) }

/-- The record written to localStorage under pomoSpaceTimerState by
updateTimerState (the TimerState interface of the component). -/
structure SavedRecord where
  timeRemaining : Nat
  isActive : Bool
  completedPomodoros : Nat
  activeTimestamp : Option Nat
  timerMode : Mode
  originalDuration : Option Nat
  timerStates : TimerStates
deriving DecidableEq, Repr

/-- updateTimerState as it settles after an operation: the last write the
effects make carries the current timeRemaining, isActive,
completedPomodoros and timerMode, the timerStates object with the current
mode entry synchronized to the live values, and activeTimestamp = Date.now()
when active, undefined otherwise. The stored originalDuration is preserved
when truthy and otherwise initialized to the full duration of the current
mode. -/
def updateTimerState (s : CompState) (nowMs : Nat) (existingOriginal : Option Nat) :
    SavedRecord :=
  let originalDuration :=
    match existingOriginal with
    | some v => if v = 0 then getDuration s.timerMode s.settings else v
    | none => getDuration s.timerMode s.settings
  { timeRemaining := s.timeRemaining
    isActive := s.isActive
    completedPomodoros := s.completedPomodoros
    activeTimestamp := if s.isActive then some nowMs else none
    timerMode := s.timerMode
    originalDuration := some originalDuration
    timerStates := s.timerStates.set s.timerMode ⟨s.timeRemaining, s.isActive⟩ }

/-- getSavedTimerState (lines 265-385) applied to a present, well-formed
record (records written by updateTimerState always carry a timerStates
object, so the branch that rebuilds a missing timerStates is not reachable
for them, and JSON parsing cannot fail). Returns the state the component
initializes from together with the number of onPomodoroComplete invocations
made during the load. The source computes
elapsedSeconds = Math.floor((now - activeTimestamp)/1000); the caller
guarantees now >= activeTimestamp, under which Nat subtraction and division
agree with the source, and Math.max(0, timeRemaining - elapsedSeconds) is
Nat truncated subtraction. The timerMode prop enters only the branches for
an absent record and the scheduled setTimerMode call, neither of which
affects the returned record here. -/
def getSavedTimerState (r : SavedRecord) (settings : Settings) (nowMs : Nat) :
    SavedRecord × Nat :=
  match r.activeTimestamp with
  | some ts =>
    if r.isActive ∧ 0 < ts then
      let elapsedSeconds := (nowMs - ts) / 1000
      let newTimeRemaining := r.timeRemaining - elapsedSeconds
      -- line 299: the active entry is updated before the completion check
      let states0 := r.timerStates.set r.timerMode ⟨newTimeRemaining, (r.timerStates.get r.timerMode).isActive⟩
      if newTimeRemaining = 0 then
        let isPomo := r.timerMode = .pomodoro
        let notifications := if isPomo then 1 else 0
        let newCompleted := if isPomo then r.completedPomodoros + 1 else r.completedPomodoros
        let newMode : Mode :=
          if isPomo then
            if (r.completedPomodoros + 1) % settings.longBreakInterval = 0 then .longBreak
            else .shortBreak
          else .pomodoro
        let states1 := states0.set r.timerMode ⟨getDuration r.timerMode settings, false⟩
        ({ timeRemaining := getDuration newMode settings
           isActive := false
           completedPomodoros := newCompleted
           activeTimestamp := none
           timerMode := newMode
           originalDuration := none
           timerStates := states1 }, notifications)
      else
        ({ r with
           timeRemaining := newTimeRemaining
           activeTimestamp := some nowMs
           timerStates := states0 }, 0)
    else (r, 0)
  | none => (r, 0)

/-- The default state getSavedTimerState returns when nothing is stored
(lines 368-378). -/
def freshSavedState (mode : Mode) (settings : Settings) : SavedRecord :=
  { timeRemaining := getDuration mode settings
    isActive := false
    completedPomodoros := 0
    activeTimestamp := none
    timerMode := mode
    originalDuration := none
    timerStates :=
      ⟨⟨getDuration .pomodoro settings, false⟩,
       ⟨getDuration .shortBreak settings, false⟩,
       ⟨getDuration .longBreak settings, false⟩⟩ }

/-- Mounting the component from a loader result L with timerMode prop p.
All five effects run after the first render against the render-1 state and
their setState calls are applied in order, so: the [isActive] effect and
the [timerMode] effect write timerStates and timeRemaining, and the
[settings.timerDurations] effect then overwrites both - its forEach calls
setTimeRemaining on every iteration (the loop variable shadows the
timerMode prop), leaving the longBreak result as the displayed time. The
[timerMode] effect also sets isActive to false, so any interval the
interval effect created in the first commit is torn down in the second,
where the [isActive] effect (when isActive changed) re-synchronizes the
active entry to the settled values. -/
def mount (L : SavedRecord) (p : Mode) (settings : Settings) : CompState :=
  let act1 := (L.timerStates.get p).isActive
  let updated := settingsStatesUpdate settings L.timerStates
  let displayed := updated.longBreak.timeRemaining
  let states := if act1 then updated.set p ⟨displayed, false⟩ else updated
  { timerMode := p
    timeRemaining := displayed
    isActive := false
    completedPomodoros := L.completedPomodoros
    timerStates := states
    intervalActive := false
    settings := settings }

/-- First use: nothing persisted, the component mounts from the default
loader state. -/
def initState (settings : Settings) (p : Mode) : CompState :=
  mount (freshSavedState p settings) p settings

/-- A persistence round trip: the settled record is written at time 1 (any
positive timestamp), the page reloads elapsedSec seconds later, the loader
reconciles the record and the component mounts with timerMode prop p (the
app stores its mode separately, so p is arbitrary). -/
def reloadOp (s : CompState) (p : Mode) (elapsedSec : Nat) : CompState :=
  let r := updateTimerState s 1 none
  let L := (getSavedTimerState r s.settings (1 + 1000 * elapsedSec)).1
  mount L p s.settings

/-- States reachable from first use through the modelled operations. -/
inductive Reach (settings₀ : Settings) (p₀ : Mode) : CompState → Prop where
  | init : Reach settings₀ p₀ (initState settings₀ p₀)
  | toggle {s} : Reach settings₀ p₀ s → Reach settings₀ p₀ (toggleTimer s)
  | reset {s} : Reach settings₀ p₀ s → Reach settings₀ p₀ (resetTimer s)
  | switch {s} (m : Mode) : Reach settings₀ p₀ s → Reach settings₀ p₀ (changeTimerMode s m)
  | tickEv {s} : Reach settings₀ p₀ s → Reach settings₀ p₀ (tick s)
  | settings {s} (stg : Settings) : Reach settings₀ p₀ s →
      Reach settings₀ p₀ (settingsChange s stg)
  | reload {s} (p : Mode) (e : Nat) : Reach settings₀ p₀ s →
      Reach settings₀ p₀ (reloadOp s p e)

/-- Events of a run including wall-clock advances. A toggle click and a
tick callback take negligible wall time; advanceMs only moves the clock.
Nothing in the live update path reads the clock - the only Date.now()
reads feed localStorage writes - so the clock can be carried separately. -/
inductive TEvent where
  | toggle
  | tickEv
  | advanceMs (d : Nat)
deriving DecidableEq, Repr

/-- A component state together with the wall clock. -/
structure World where
  st : CompState
  nowMs : Nat
deriving DecidableEq, Repr

def stepEvent (w : World) : TEvent → World
  | .toggle => ⟨toggleTimer w.st, w.nowMs⟩
  | .tickEv => ⟨tick w.st, w.nowMs⟩
  | .advanceMs d => ⟨w.st, w.nowMs + d⟩

def runEvents (w : World) (evs : List TEvent) : World :=
  evs.foldl stepEvent w

end Machine

namespace Storage

/-- A raw localStorage value: absent (getItem returned null), malformed
(JSON.parse throws, or a field access on a non-object throws), or parsed
into the given shape. Fields of parsed objects are Option-valued: none
models a missing field (undefined). Numeric fields are modelled as Int
(JS numbers in the inputs of interest are integers). -/
inductive Stored (α : Type) where
  | absent
  | malformed
  | parsed (a : α)
deriving DecidableEq, Repr

/-- JS truthiness fallback x || d for a possibly missing number: 0 (and a
missing field) falls back to the default. -/
def orNum (x : Option Int) (d : Int) : Int :=
  match x with
  | some v => if v = 0 then d else v
  | none => d

/-- JS truthiness fallback x || d for a possibly missing string. -/
def orStr (x : Option String) (d : String) : String :=
  match x with
  | some v => if v = "" then d else v
  | none => d

/-- JS truthiness x || false for a possibly missing boolean. -/
def orFalse (x : Option Bool) : Bool :=
  match x with
  | some b => b
  | none => false

/-- The parsed timerDurations object. -/
structure TimerDurationsJson where
  pomodoro : Option Int
  shortBreak : Option Int
  longBreak : Option Int
deriving DecidableEq, Repr

/-- The parsed sound object. -/
structure SoundJson where
  alarmSound : Option String
  alarmVolume : Option Int
  alarmRepeat : Option Int
  tickingSound : Option String
  tickingVolume : Option Int
deriving DecidableEq, Repr

/-- The parsed settings object. -/
structure SettingsJson where
  timerDurations : Option TimerDurationsJson
  longBreakInterval : Option Int
  autoStartBreaks : Option Bool
  autoStartPomodoros : Option Bool
  darkMode : Option Bool
  sound : Option SoundJson
  lastUpdated : Option Int
deriving DecidableEq, Repr

/-- The sound block of the validated Settings value. -/
structure Sound where
  alarmSound : String
  alarmVolume : Int
  alarmRepeat : Int
  tickingSound : String
  tickingVolume : Int
deriving DecidableEq, Repr

/-- The Settings value getSettings returns. -/
structure Settings where
  pomodoro : Int
  shortBreak : Int
  longBreak : Int
  longBreakInterval : Int
  autoStartBreaks : Bool
  autoStartPomodoros : Bool
  darkMode : Bool
  sound : Sound
  lastUpdated : Int
deriving DecidableEq, Repr

/-- DEFAULT_SETTINGS; its lastUpdated is Date.now() at module load, passed
in as t0. -/
def DEFAULT_SETTINGS (t0 : Int) : Settings :=
  { pomodoro := 25
    shortBreak := 5
    longBreak := 15
    longBreakInterval := 4
    autoStartBreaks := false
    autoStartPomodoros := false
    darkMode := true
    sound := ⟨"kitty", 80, 1, "none", 50⟩
    lastUpdated := t0 }

/-- getSettings (localStorageUtils.ts lines 67-110): absent or unparseable
input falls back to DEFAULT_SETTINGS; a parsed object must have a numeric
timerDurations.pomodoro within [1, 60] or DEFAULT_SETTINGS is returned;
otherwise each field is taken with a JS truthiness fallback. Only the
pomodoro duration is range checked. -/
def getSettings (stored : Stored SettingsJson) (nowMs : Int) (t0 : Int) : Settings :=
  match stored with
  | .absent => DEFAULT_SETTINGS t0
  | .malformed => DEFAULT_SETTINGS t0
  | .parsed savedSettings =>
    match savedSettings.timerDurations with
    | none => DEFAULT_SETTINGS t0
    | some td =>
      match td.pomodoro with
      | none => DEFAULT_SETTINGS t0
      | some p =>
        if p < 1 ∨ 60 < p then DEFAULT_SETTINGS t0
        else
          { pomodoro := orNum td.pomodoro 25
            shortBreak := orNum td.shortBreak 5
            longBreak := orNum td.longBreak 15
            longBreakInterval := orNum savedSettings.longBreakInterval 4
            autoStartBreaks := orFalse savedSettings.autoStartBreaks
            autoStartPomodoros := orFalse savedSettings.autoStartPomodoros
            darkMode := savedSettings.darkMode.getD true
            sound :=
              { alarmSound := orStr (savedSettings.sound.bind (·.alarmSound)) "kitty"
                alarmVolume := orNum (savedSettings.sound.bind (·.alarmVolume)) 80
                alarmRepeat := orNum (savedSettings.sound.bind (·.alarmRepeat)) 1
                tickingSound := orStr (savedSettings.sound.bind (·.tickingSound)) "none"
                tickingVolume := orNum (savedSettings.sound.bind (·.tickingVolume)) 50 }
            lastUpdated := orNum savedSettings.lastUpdated nowMs }

/-- A parsed per-kind timer state entry. -/
structure SlotJson where
  timeRemaining : Option Int
  isActive : Option Bool
deriving DecidableEq, Repr

/-- The parsed timerStates object; a missing per-kind entry makes the
source throw on the .isActive access, which the surrounding catch turns
into the fresh default state. -/
structure TimerStatesJson where
  pomodoro : Option SlotJson
  shortBreak : Option SlotJson
  longBreak : Option SlotJson
deriving DecidableEq, Repr

/-- The parsed pomoSpaceTimerState record. -/
structure TimerStateJson where
  timeRemaining : Option Int
  isActive : Option Bool
  completedPomodoros : Option Int
  activeTimestamp : Option Int
  timerMode : Option String
  originalDuration : Option Int
  timerStates : Option TimerStatesJson
deriving DecidableEq, Repr

/-- Duration in seconds a settings value assigns to a kind. -/
def settingsDuration (settings : Settings) : Machine.Mode → Int
  | .pomodoro => settings.pomodoro * 60
  | .shortBreak => settings.shortBreak * 60
  | .longBreak => settings.longBreak * 60

/-- createFreshTimerState (lines 142-165). -/
def createFreshTimerState (currentMode : String) (settings : Settings) : TimerStateJson :=
  let pomodoroTime := settings.pomodoro * 60
  let shortBreakTime := settings.shortBreak * 60
  let longBreakTime := settings.longBreak * 60
  let currentTime :=
    if currentMode = "shortBreak" then shortBreakTime
    else if currentMode = "longBreak" then longBreakTime
    else pomodoroTime
  { timeRemaining := some currentTime
    isActive := some false
    completedPomodoros := some 0
    activeTimestamp := none
    timerMode := some currentMode
    originalDuration := some currentTime
    timerStates := some
      ⟨some ⟨some pomodoroTime, some false⟩,
       some ⟨some shortBreakTime, some false⟩,
       some ⟨some longBreakTime, some false⟩⟩ }

/-- getTimerState (lines 170-214): absent input gives the fresh default
state; a parse failure, or a timerStates object missing one of its three
entries (the .isActive access throws), is caught and also gives the fresh
default state. Otherwise, when the current mode is pomodoro and the record
is inactive the top-level timeRemaining is forced to the configured full
duration, a missing timerStates object is rebuilt at full durations, and
every per-kind entry whose isActive flag is not true gets its timeRemaining
forced to the configured full duration. -/
def getTimerState (stored : Stored TimerStateJson) (currentMode : String)
    (settings : Settings) : TimerStateJson :=
  let correctPomodoroTime := settings.pomodoro * 60
  let correctShortBreakTime := settings.shortBreak * 60
  let correctLongBreakTime := settings.longBreak * 60
  match stored with
  | .absent => createFreshTimerState currentMode settings
  | .malformed => createFreshTimerState currentMode settings
  | .parsed parsedState =>
    let parsedState :=
      if currentMode = "pomodoro" ∧ ¬(parsedState.isActive = some true) then
        { parsedState with timeRemaining := some correctPomodoroTime }
      else parsedState
    match parsedState.timerStates with
    | none =>
      let rebuilt : TimerStatesJson :=
        ⟨some ⟨some correctPomodoroTime, some false⟩,
         some ⟨some correctShortBreakTime, some false⟩,
         some ⟨some correctLongBreakTime, some false⟩⟩
      { parsedState with timerStates := some rebuilt }
    | some ts =>
      match ts.pomodoro, ts.shortBreak, ts.longBreak with
      | some po, some sb, some lb =>
        let po := if ¬(po.isActive = some true) then
            { po with timeRemaining := some correctPomodoroTime } else po
        let sb := if ¬(sb.isActive = some true) then
            { sb with timeRemaining := some correctShortBreakTime } else sb
        let lb := if ¬(lb.isActive = some true) then
            { lb with timeRemaining := some correctLongBreakTime } else lb
        { parsedState with timerStates := some ⟨some po, some sb, some lb⟩ }
      | _, _, _ => createFreshTimerState currentMode settings

/-- fixHardcodedPomodoroTime (lines 259-302): looks for the exact value
900 in timerStates.pomodoro.timeRemaining, and (when timerMode is
pomodoro) in the top-level timeRemaining and originalDuration, rewriting
each occurrence to 1500. Returns the boolean result of the function and
the record written back to localStorage (none when nothing was written). -/
def fixHardcodedPomodoroTime (stored : Stored TimerStateJson) :
    Bool × Option TimerStateJson :=
  match stored with
  | .absent => (false, none)
  | .malformed => (false, none)
  | .parsed parsedState =>
    let slot900 :=
      (parsedState.timerStates.bind (·.pomodoro)).bind (·.timeRemaining) = some 900
    let p1 :=
      if slot900 then
        { parsedState with timerStates :=
            parsedState.timerStates.map fun ts =>
              { ts with pomodoro := ts.pomodoro.map fun po =>
                  { po with timeRemaining := some 1500 } } }
      else parsedState
    let main900 := p1.timerMode = some "pomodoro" ∧ p1.timeRemaining = some 900
    let p2 := if main900 then { p1 with timeRemaining := some 1500 } else p1
    let orig900 := p2.timerMode = some "pomodoro" ∧ p2.originalDuration = some 900
    let p3 := if orig900 then { p2 with originalDuration := some 1500 } else p2
    let found := slot900 ∨ main900 ∨ orig900
    if found then (true, some p3) else (false, none)

end Storage

namespace Machine

/-- The default durations (25, 5, 15 minutes) with longBreakInterval 4. -/
def defaultLiveSettings : Settings := ⟨25, 5, 15, 4⟩

/-- A component state with the Focus timer running at a displayed 1193
seconds out of a configured 1500: the timer was started at the full 1500
(the [isActive] effect snapshotted { 1500, true } into
timerStates.pomodoro at that moment - the per-tick effect persists but
never writes timerStates back into memory) and 307 ticks have elapsed.
Reachable from initState by resetTimer, toggleTimer and 307 ticks. -/
def focusRunning307 : CompState :=
  { timerMode := .pomodoro
    timeRemaining := 1193
    isActive := true
    completedPomodoros := 0
    timerStates := ⟨⟨1500, true⟩, ⟨300, false⟩, ⟨900, false⟩⟩
    intervalActive := true
    settings := defaultLiveSettings }

/-- The P7 record: a running Focus slot persisted at timestamp 1 with the
full 1500 seconds remaining, reloaded 2000000 ms later. -/
def overrunRecord : SavedRecord :=
  { timeRemaining := 1500
    isActive := true
    completedPomodoros := 0
    activeTimestamp := some 1
    timerMode := .pomodoro
    originalDuration := some 1500
    timerStates := ⟨⟨1500, true⟩, ⟨300, false⟩, ⟨900, false⟩⟩ }

/-- A running Focus timer one second from completion. -/
def completingFocus : CompState :=
  { timerMode := .pomodoro
    timeRemaining := 1
    isActive := true
    completedPomodoros := 0
    timerStates := ⟨⟨1500, true⟩, ⟨300, false⟩, ⟨900, false⟩⟩
    intervalActive := true
    settings := defaultLiveSettings }

/-- One Start/Pause cycle in which the wall clock advances d ms and k tick
callbacks are delivered before the Pause. -/
def pauseResumeCycle (d k : Nat) : List TEvent :=
  .toggle :: .advanceMs d :: (List.replicate k .tickEv ++ [.toggle])

/-- A sequence of Start/Pause cycles, each with its wall advance and its
delivered tick count. -/
def pauseResumeTrace (ks : List (Nat × Nat)) : List TEvent :=
  ks.flatMap fun dk => pauseResumeCycle dk.1 dk.2

/-- A paused fresh Focus slot at the full default 1500 seconds. -/
def freshFocusPaused : CompState :=
  { timerMode := .pomodoro
    timeRemaining := 1500
    isActive := false
    completedPomodoros := 0
    timerStates := ⟨⟨1500, false⟩, ⟨300, false⟩, ⟨900, false⟩⟩
    intervalActive := false
    settings := defaultLiveSettings }

/-- The state reached by Start(Focus), Switch(ShortBreak), Start(ShortBreak)
from a fresh mount. -/
def c4TwoFlags : CompState :=
  toggleTimer (changeTimerMode (toggleTimer (initState defaultLiveSettings .pomodoro))
    .shortBreak)

/-- A paused Focus slot obtained by resetting the freshly mounted
component: the displayed time is the configured 1500 seconds. -/
def c7Start : CompState := resetTimer (initState defaultLiveSettings .pomodoro)

/-- Start, five ticks, switch to ShortBreak and back to Focus. -/
def c7Final : CompState :=
  changeTimerMode (changeTimerMode (tickN (toggleTimer c7Start) 5) .shortBreak) .pomodoro

end Machine

namespace Storage

/-- The per-kind entry of a parsed timerStates object. -/
def slotOf (ts : TimerStatesJson) : Machine.Mode → Option SlotJson
  | .pomodoro => ts.pomodoro
  | .shortBreak => ts.shortBreak
  | .longBreak => ts.longBreak

/-- The per-kind entry of a loader result; loader results always carry all
three entries, so the fallback empty slot is never reached. -/
def resultSlot (t : TimerStateJson) (k : Machine.Mode) : SlotJson :=
  (t.timerStates.bind (slotOf · k)).getD ⟨none, none⟩

/-- The stored pomodoro slot remaining of a record, through the optional
chain the source uses. -/
def pomodoroSlotRemaining (p : TimerStateJson) : Option Int :=
  (p.timerStates.bind (·.pomodoro)).bind (·.timeRemaining)

/-- A legitimately configured 15-minute pomodoro sitting at its full
duration of 900 seconds, paused, with mode pomodoro. -/
def legitFifteenMinuteState : TimerStateJson :=
  { timeRemaining := some 900
    isActive := some false
    completedPomodoros := some 0
    activeTimestamp := none
    timerMode := some "pomodoro"
    originalDuration := some 900
    timerStates :=
      some ⟨some ⟨some 900, some false⟩,
            some ⟨some 300, some false⟩,
            some ⟨some 900, some false⟩⟩ }

/-- The record fixHardcodedPomodoroTime writes back for
legitFifteenMinuteState: every 900 that the pass inspects became 1500. -/
def legitFifteenMinuteRewritten : TimerStateJson :=
  { legitFifteenMinuteState with
    timeRemaining := some 1500
    originalDuration := some 1500
    timerStates :=
      some ⟨some ⟨some 1500, some false⟩,
            some ⟨some 300, some false⟩,
            some ⟨some 900, some false⟩⟩ }

end Storage

/-- C1: the settings-change reconciliation does not implement
newRemaining = max(floor, newDuration - elapsed). On the P3 input (Focus
running, 1500 s configured, 307 s elapsed, duration changed to 1620 s) the
claim and the comment inside the effect (lines 650-652) both promise a
remaining time of 1313 s; instead the effect leaves the stored pomodoro
entry at 1500 s (oldFullDuration is computed from a spread copy of the NEW
settings, so the measured elapsed time is wrong) and sets the displayed
time to 900 s, the longBreak result, because the forEach loop variable
shadows the timerMode prop. -/
theorem c1_settings_edit_misreconciles :
    (Machine.settingsChange Machine.focusRunning307 ⟨27, 5, 15, 4⟩).timeRemaining = 900 ∧
    (Machine.settingsChange Machine.focusRunning307 ⟨27, 5, 15, 4⟩).timerStates.pomodoro.timeRemaining = 1500 ∧
    (Machine.settingsChange Machine.focusRunning307 ⟨27, 5, 15, 4⟩).isActive = true ∧
    (900 : Nat) ≠ 1313 ∧ (1500 : Nat) ≠ 1313 := by
  decide

/-- C3: a settings run that changes only the ShortBreak duration (5 to 6
minutes) while Focus is running and partially elapsed does not leave the
Focus slot untouched: the shadowed timerMode inside the forEach makes the
check guarding setTimeRemaining succeed on every iteration, so the
displayed Focus remaining drops from 1193 s to 900 s (the recomputed
longBreak value), even though the configured Focus duration is 25 minutes
both before and after. -/
theorem c3_untouched_kind_perturbed :
    Machine.focusRunning307.settings.pomodoro = 25 ∧
    (⟨25, 6, 15, 4⟩ : Machine.Settings).pomodoro = 25 ∧
    Machine.focusRunning307.timerMode = .pomodoro ∧
    Machine.focusRunning307.timeRemaining = 1193 ∧
    (Machine.settingsChange Machine.focusRunning307 ⟨25, 6, 15, 4⟩).timeRemaining = 900 ∧
    (900 : Nat) ≠ 1193 := by
  decide

/-- C6: when a persisted record was running (isActive with a truthy
activeTimestamp), getSavedTimerState recomputes the remaining time from the
stored timestamp and the current time. If the recomputed remaining is zero
or the stored remaining was overrun, the completion fires during the load:
the returned state is not running, for a Focus slot the completed count is
incremented and onPomodoroComplete is invoked exactly once, the next kind
follows the long-break schedule, and its slot sits at full duration.
Otherwise the record stays running, its remaining reduced by the elapsed
seconds and its timestamp re-anchored to now. The hypothesis ts <= nowMs
is where Nat arithmetic and the JS Date arithmetic agree. -/
theorem c6_reload_reconciliation
    (r : Machine.SavedRecord) (settings : Machine.Settings) (nowMs ts : Nat)
    (hact : r.isActive = true) (hts : r.activeTimestamp = some ts)
    (htpos : 0 < ts) (hnow : ts ≤ nowMs) :
    (r.timeRemaining ≤ (nowMs - ts) / 1000 →
      ((Machine.getSavedTimerState r settings nowMs).1.isActive = false ∧
       (Machine.getSavedTimerState r settings nowMs).1.completedPomodoros =
         (if r.timerMode = .pomodoro then r.completedPomodoros + 1
          else r.completedPomodoros) ∧
       (Machine.getSavedTimerState r settings nowMs).2 =
         (if r.timerMode = .pomodoro then 1 else 0) ∧
       (Machine.getSavedTimerState r settings nowMs).1.timerMode =
         (if r.timerMode = .pomodoro then
            (if (r.completedPomodoros + 1) % settings.longBreakInterval = 0
             then Machine.Mode.longBreak else Machine.Mode.shortBreak)
          else Machine.Mode.pomodoro) ∧
       (Machine.getSavedTimerState r settings nowMs).1.timeRemaining =
         Machine.getDuration
           (Machine.getSavedTimerState r settings nowMs).1.timerMode settings)) ∧
    ((nowMs - ts) / 1000 < r.timeRemaining →
      ((Machine.getSavedTimerState r settings nowMs).1.isActive = true ∧
       (Machine.getSavedTimerState r settings nowMs).1.timeRemaining =
         r.timeRemaining - (nowMs - ts) / 1000 ∧
       (Machine.getSavedTimerState r settings nowMs).1.activeTimestamp = some nowMs ∧
       (Machine.getSavedTimerState r settings nowMs).2 = 0 ∧
       (Machine.getSavedTimerState r settings nowMs).1.completedPomodoros =
         r.completedPomodoros)) := by
  constructor
  · intro hover
    have h0 : r.timeRemaining - (nowMs - ts) / 1000 = 0 := Nat.sub_eq_zero_of_le hover
    rcases hm : r.timerMode <;>
      simp [Machine.getSavedTimerState, hts, hact, htpos, h0, hm]
  · intro hunder
    have h0 : ¬(r.timeRemaining - (nowMs - ts) / 1000 = 0) := by omega
    simp [Machine.getSavedTimerState, hts, hact, htpos, h0]

/-- C6 witness: on the P7 input the completion fires during the load - the
loaded state is paused at the short break (first completion, interval 4) at
its full 300 seconds, the completed count is 1 and exactly one
onPomodoroComplete call was made. -/
theorem c6_reload_reconciliation_witness :
    (Machine.getSavedTimerState Machine.overrunRecord Machine.defaultLiveSettings
        2000001).1.isActive = false ∧
    (Machine.getSavedTimerState Machine.overrunRecord Machine.defaultLiveSettings
        2000001).1.completedPomodoros = 1 ∧
    (Machine.getSavedTimerState Machine.overrunRecord Machine.defaultLiveSettings
        2000001).2 = 1 ∧
    (Machine.getSavedTimerState Machine.overrunRecord Machine.defaultLiveSettings
        2000001).1.timerMode = Machine.Mode.shortBreak ∧
    (Machine.getSavedTimerState Machine.overrunRecord Machine.defaultLiveSettings
        2000001).1.timeRemaining = 300 := by
  have h := c6_reload_reconciliation Machine.overrunRecord Machine.defaultLiveSettings
    2000001 1 rfl rfl (by decide) (by decide)
  have hc := h.1 (by decide)
  simpa using hc

/-- C5 counterexample: when the completion branch of the tick callback
fires, onPomodoroComplete is invoked while isActive is still true - the
completion clears the interval, but the running flag is only cleared later
by the [timerMode] effect, so it is not cleared synchronously before the
notification side effect as the claim states. -/
theorem c5_notify_while_running_counterexample :
    (Machine.tickStep Machine.completingFocus).map Prod.snd =
      some [Machine.Ev.notify true] ∧
    Machine.completingFocus.isActive = true := by
  decide

/-- C5 amended: a completion tick of a running Focus timer fires Complete
at most once - the guard is that the interval is cleared synchronously, so
a second near-simultaneous tick evaluation finds no interval and is a
no-op - and invokes onPomodoroComplete exactly once; the running flag,
however, is not cleared before the notification runs (the event records it
still true) and is only cleared by the [timerMode] effect at the end of
the composite transition. -/
theorem c5_complete_at_most_once (s : Machine.CompState)
    (hint : s.intervalActive = true) (hact : s.isActive = true)
    (hrem : s.timeRemaining ≤ 1) (hmode : s.timerMode = .pomodoro) :
    Machine.tickStep s = some (Machine.tick s, [Machine.Ev.notify true]) ∧
    (Machine.tick s).intervalActive = false ∧
    Machine.tickStep (Machine.tick s) = none ∧
    (Machine.tick s).isActive = false := by
  by_cases hmod : (s.completedPomodoros + 1) % s.settings.longBreakInterval = 0 <;>
    simp [Machine.tickStep, Machine.tick, Machine.changeTimerMode,
      Machine.timerModeEffect, hint, hact, hrem, hmode, hmod]

/-- C5 witness: the amended statement at the concrete completing state. -/
theorem c5_complete_at_most_once_witness :
    Machine.tickStep Machine.completingFocus =
      some (Machine.tick Machine.completingFocus, [Machine.Ev.notify true]) ∧
    (Machine.tick Machine.completingFocus).intervalActive = false ∧
    Machine.tickStep (Machine.tick Machine.completingFocus) = none ∧
    (Machine.tick Machine.completingFocus).isActive = false :=
  c5_complete_at_most_once Machine.completingFocus rfl rfl (by decide) rfl

/-- C8 counterexample: a stored settings record whose shortBreak duration
is -3 passes getSettings untouched - only the pomodoro duration is range
checked - so the returned settings carry a timer duration below 1 minute,
contradicting the claim that every returned duration is at least 1. -/
theorem c8_negative_short_break_counterexample :
    (Storage.getSettings
        (.parsed ⟨some ⟨some 25, some (-3), some 15⟩, none, none, none, none, none, none⟩)
        0 0).shortBreak = -3 ∧
    (-3 : Int) < 1 := by
  decide

/-- C8 amended: the loaders never throw (they are total functions into
well-formed records); absent or unparseable storage yields the defaults in
both loaders; and the pomodoro duration returned by getSettings always lies
in [1, 60]. The shortBreak and longBreak durations, however, are passed
through without any range validation, so out-of-range stored values survive
into the returned settings. -/
theorem c8_loader_recovery :
    (∀ (stored : Storage.Stored Storage.SettingsJson) (nowMs t0 : Int),
        1 ≤ (Storage.getSettings stored nowMs t0).pomodoro ∧
        (Storage.getSettings stored nowMs t0).pomodoro ≤ 60) ∧
    (∀ nowMs t0 : Int,
        Storage.getSettings .absent nowMs t0 = Storage.DEFAULT_SETTINGS t0 ∧
        Storage.getSettings .malformed nowMs t0 = Storage.DEFAULT_SETTINGS t0) ∧
    (∀ (currentMode : String) (settings : Storage.Settings),
        Storage.getTimerState .absent currentMode settings
            = Storage.createFreshTimerState currentMode settings ∧
        Storage.getTimerState .malformed currentMode settings
            = Storage.createFreshTimerState currentMode settings) := by
  refine ⟨?_, fun nowMs t0 => ⟨rfl, rfl⟩, fun currentMode settings => ⟨rfl, rfl⟩⟩
  intro stored nowMs t0
  rcases stored with _ | _ | s
  · exact ⟨by norm_num [Storage.getSettings, Storage.DEFAULT_SETTINGS],
      by norm_num [Storage.getSettings, Storage.DEFAULT_SETTINGS]⟩
  · exact ⟨by norm_num [Storage.getSettings, Storage.DEFAULT_SETTINGS],
      by norm_num [Storage.getSettings, Storage.DEFAULT_SETTINGS]⟩
  · obtain ⟨td, lbi, asb, asp, dm, snd, lu⟩ := s
    rcases td with _ | ⟨pd, sbd, lbd⟩
    · exact ⟨by norm_num [Storage.getSettings, Storage.DEFAULT_SETTINGS],
        by norm_num [Storage.getSettings, Storage.DEFAULT_SETTINGS]⟩
    · rcases pd with _ | p
      · exact ⟨by norm_num [Storage.getSettings, Storage.DEFAULT_SETTINGS],
          by norm_num [Storage.getSettings, Storage.DEFAULT_SETTINGS]⟩
      · by_cases hp : p < 1 ∨ 60 < p
        · simp only [Storage.getSettings, hp, if_true]
          exact ⟨by norm_num [Storage.DEFAULT_SETTINGS], by norm_num [Storage.DEFAULT_SETTINGS]⟩
        · have hb : 1 ≤ p ∧ p ≤ 60 := by push_neg at hp; exact hp
          have hp0 : p ≠ 0 := by omega
          simp only [Storage.getSettings, if_neg hp]
          constructor <;> simp [Storage.orNum, hp0] <;> omega

namespace Machine

theorem get_set_same (ts : TimerStates) (m : Mode) (sl : Slot) :
    (ts.set m sl).get m = sl := by
  cases m <;> rfl

theorem get_set_ne (ts : TimerStates) (m m' : Mode) (sl : Slot) (h : ¬(m' = m)) :
    (ts.set m sl).get m' = ts.get m' := by
  cases m <;> cases m' <;> first | rfl | exact absurd rfl h

theorem settingsSlotUpdate_isActive (stg : Settings) (m : Mode) (sl : Slot) :
    (settingsSlotUpdate stg m sl).isActive = sl.isActive := by
  rw [settingsSlotUpdate]
  split_ifs <;> rfl

theorem settingsStatesUpdate_isActive (stg : Settings) (ts : TimerStates) (m : Mode) :
    ((settingsStatesUpdate stg ts).get m).isActive = (ts.get m).isActive := by
  cases m <;> exact settingsSlotUpdate_isActive _ _ _

/-- A tick strictly before completion decrements the counter and keeps the
interval alive; nothing else changes. -/
theorem tickStep_run (s : CompState) (hint : s.intervalActive = true)
    (hact : s.isActive = true) (hrem : 2 ≤ s.timeRemaining) :
    tickStep s =
      some ({ s with timeRemaining := s.timeRemaining - 1, intervalActive := true }, []) := by
  have h1 : ¬(s.timeRemaining ≤ 1) := by omega
  have h2 : 0 < s.timeRemaining - 1 := by omega
  simp [tickStep, hint, h1, hact, h2]

/-- Iterated non-completing ticks of a running timer: the displayed time
drops by the number of callbacks delivered and everything else stays. -/
theorem tickN_run (k : Nat) (s : CompState) (hact : s.isActive = true)
    (hint : s.intervalActive = true) (hk : k + 1 ≤ s.timeRemaining) :
    (tickN s k).timeRemaining = s.timeRemaining - k ∧
    (tickN s k).isActive = true ∧
    (tickN s k).intervalActive = true ∧
    (tickN s k).timerMode = s.timerMode ∧
    (tickN s k).timerStates = s.timerStates ∧
    (tickN s k).completedPomodoros = s.completedPomodoros ∧
    (tickN s k).settings = s.settings := by
  induction k generalizing s with
  | zero => exact ⟨by simp [tickN], by simp [tickN, hact], by simp [tickN, hint],
      rfl, rfl, rfl, rfl⟩
  | succ k ih =>
    have hstep := tickStep_run s hint hact (by omega)
    have htick : tick s = { s with timeRemaining := s.timeRemaining - 1, intervalActive := true } := by
      simp [tick, hstep]
    have ih' := ih { s with timeRemaining := s.timeRemaining - 1, intervalActive := true }
      hact rfl (by simp; omega)
    rw [show tickN s (k + 1) = tickN (tick s) k from rfl, htick]
    refine ⟨?_, ih'.2.1, ih'.2.2.1, ih'.2.2.2.1, ih'.2.2.2.2.1, ih'.2.2.2.2.2.1,
      ih'.2.2.2.2.2.2⟩
    rw [ih'.1]
    simp
    omega

theorem changeTimerMode_ne_fields (s : CompState) (m : Mode) (h : ¬(m = s.timerMode)) :
    (changeTimerMode s m).timerMode = m ∧
    (changeTimerMode s m).timeRemaining = (s.timerStates.get m).timeRemaining ∧
    (changeTimerMode s m).isActive = false ∧
    (changeTimerMode s m).intervalActive = false ∧
    (changeTimerMode s m).completedPomodoros = s.completedPomodoros ∧
    (changeTimerMode s m).settings = s.settings := by
  simp [changeTimerMode, timerModeEffect, h]

theorem changeTimerMode_ne_get_self (s : CompState) (m : Mode) (h : ¬(m = s.timerMode)) :
    ((changeTimerMode s m).timerStates.get m).isActive = false := by
  simp only [changeTimerMode, timerModeEffect, if_neg h]
  by_cases hw : s.isActive <;> simp [hw, get_set_same]

theorem changeTimerMode_ne_get_other (s : CompState) (m m' : Mode)
    (h : ¬(m = s.timerMode)) (h2 : ¬(m' = m)) :
    (changeTimerMode s m).timerStates.get m' = s.timerStates.get m' := by
  simp only [changeTimerMode, timerModeEffect, if_neg h]
  by_cases hw : s.isActive <;> simp [hw, get_set_ne _ _ _ _ h2]

theorem runEvents_cons (w : World) (e : TEvent) (evs : List TEvent) :
    runEvents w (e :: evs) = runEvents (stepEvent w e) evs := rfl

theorem runEvents_append (w : World) (l1 l2 : List TEvent) :
    runEvents w (l1 ++ l2) = runEvents (runEvents w l1) l2 := by
  simp [runEvents, List.foldl_append]

theorem runEvents_replicate_tick (k : Nat) (w : World) :
    runEvents w (List.replicate k .tickEv) = ⟨tickN w.st k, w.nowMs⟩ := by
  induction k generalizing w with
  | zero => rfl
  | succ k ih =>
    rw [List.replicate_succ, runEvents_cons]
    exact ih ⟨tick w.st, w.nowMs⟩

/-- Effect of one Start/Pause cycle on a paused state: the displayed time
drops by the delivered tick count, the wall clock by the advance, and the
state is paused again in the same mode. -/
theorem runCycle (s : CompState) (n0 d k : Nat) (hpause : s.isActive = false)
    (hk : k < s.timeRemaining) :
    (runEvents ⟨s, n0⟩ (pauseResumeCycle d k)).st.timeRemaining = s.timeRemaining - k ∧
    (runEvents ⟨s, n0⟩ (pauseResumeCycle d k)).st.isActive = false ∧
    (runEvents ⟨s, n0⟩ (pauseResumeCycle d k)).st.timerMode = s.timerMode ∧
    (runEvents ⟨s, n0⟩ (pauseResumeCycle d k)).st.completedPomodoros = s.completedPomodoros ∧
    (runEvents ⟨s, n0⟩ (pauseResumeCycle d k)).st.settings = s.settings ∧
    (runEvents ⟨s, n0⟩ (pauseResumeCycle d k)).nowMs = n0 + d := by
  have hrun : runEvents ⟨s, n0⟩ (pauseResumeCycle d k) =
      runEvents ⟨tickN (toggleTimer s) k, n0 + d⟩ [.toggle] := by
    rw [pauseResumeCycle, runEvents_cons, runEvents_cons]
    show runEvents ⟨toggleTimer s, n0 + d⟩ (List.replicate k .tickEv ++ [.toggle]) = _
    rw [runEvents_append, runEvents_replicate_tick]
  have hstart : (toggleTimer s).isActive = true ∧
      (toggleTimer s).intervalActive = true ∧
      (toggleTimer s).timeRemaining = s.timeRemaining ∧
      (toggleTimer s).timerMode = s.timerMode ∧
      (toggleTimer s).completedPomodoros = s.completedPomodoros ∧
      (toggleTimer s).settings = s.settings := by
    refine ⟨by simp [toggleTimer, hpause], ?_, rfl, rfl, rfl, rfl⟩
    simp [toggleTimer, hpause]
    omega
  have hticks := tickN_run k (toggleTimer s) hstart.1 hstart.2.1
    (by rw [hstart.2.2.1]; omega)
  rw [hrun]
  show (toggleTimer (tickN (toggleTimer s) k)).timeRemaining = _ ∧
    (toggleTimer (tickN (toggleTimer s) k)).isActive = false ∧
    (toggleTimer (tickN (toggleTimer s) k)).timerMode = _ ∧
    (toggleTimer (tickN (toggleTimer s) k)).completedPomodoros = _ ∧
    (toggleTimer (tickN (toggleTimer s) k)).settings = _ ∧
    (n0 + d = n0 + d)
  refine ⟨?_, ?_, ?_, ?_, ?_, rfl⟩
  · show (tickN (toggleTimer s) k).timeRemaining = _
    rw [hticks.1, hstart.2.2.1]
  · rw [show (toggleTimer (tickN (toggleTimer s) k)).isActive
        = !(tickN (toggleTimer s) k).isActive from rfl, hticks.2.1]
    rfl
  · show (tickN (toggleTimer s) k).timerMode = _
    rw [hticks.2.2.2.1, hstart.2.2.2.1]
  · show (tickN (toggleTimer s) k).completedPomodoros = _
    rw [hticks.2.2.2.2.2.1, hstart.2.2.2.2.1]
  · show (tickN (toggleTimer s) k).settings = _
    rw [hticks.2.2.2.2.2.2, hstart.2.2.2.2.2]

end Machine

/-- C2 counterexample: the live countdown is a decremented counter, not a
wall-clock derivation. Two runs from the same paused fresh Focus slot, each
a single Start/Pause pair with the wall clock advancing 5000 ms in between,
end with different remaining times depending solely on how many interval
callbacks were delivered: five callbacks leave 1495 s but a throttled run
with three callbacks leaves 1497 s, not the 1500 - 5 the claim requires. -/
theorem c2_cadence_counterexample :
    (Machine.runEvents ⟨Machine.freshFocusPaused, 0⟩
        (Machine.pauseResumeTrace [(5000, 5)])).st.timeRemaining = 1495 ∧
    (Machine.runEvents ⟨Machine.freshFocusPaused, 0⟩
        (Machine.pauseResumeTrace [(5000, 3)])).st.timeRemaining = 1497 ∧
    (Machine.runEvents ⟨Machine.freshFocusPaused, 0⟩
        (Machine.pauseResumeTrace [(5000, 5)])).nowMs = 5000 ∧
    (Machine.runEvents ⟨Machine.freshFocusPaused, 0⟩
        (Machine.pauseResumeTrace [(5000, 3)])).nowMs = 5000 ∧
    (1497 : Nat) ≠ 1500 - 5 := by
  decide

/-- C2 amended: over any sequence of Start/Pause cycles that never reaches
completion, the remaining time after the final Pause equals the starting
remaining time minus the total number of tick callbacks delivered while
running - it counts callbacks, not wall-clock time, so it matches
duration - sum(di) only when exactly one callback is delivered per elapsed
second; the wall clock advances by the sum of the di independently. -/
theorem c2_remaining_counts_ticks (s : Machine.CompState) (n0 : Nat)
    (ks : List (Nat × Nat)) (hpause : s.isActive = false)
    (hsum : (ks.map Prod.snd).sum < s.timeRemaining) :
    (Machine.runEvents ⟨s, n0⟩ (Machine.pauseResumeTrace ks)).st.timeRemaining
        = s.timeRemaining - (ks.map Prod.snd).sum ∧
    (Machine.runEvents ⟨s, n0⟩ (Machine.pauseResumeTrace ks)).st.isActive = false ∧
    (Machine.runEvents ⟨s, n0⟩ (Machine.pauseResumeTrace ks)).nowMs
        = n0 + (ks.map Prod.fst).sum := by
  induction ks generalizing s n0 with
  | nil => exact ⟨by simp [Machine.pauseResumeTrace, Machine.runEvents],
      by simpa [Machine.pauseResumeTrace, Machine.runEvents] using hpause,
      by simp [Machine.pauseResumeTrace, Machine.runEvents]⟩
  | cons dk ks ih =>
    have hsplit : Machine.pauseResumeTrace (dk :: ks) =
        Machine.pauseResumeCycle dk.1 dk.2 ++ Machine.pauseResumeTrace ks := by
      simp [Machine.pauseResumeTrace]
    have hk : dk.2 < s.timeRemaining := by
      simp at hsum
      omega
    have hcyc := Machine.runCycle s n0 dk.1 dk.2 hpause hk
    rw [hsplit, Machine.runEvents_append]
    have hmid : Machine.runEvents ⟨s, n0⟩ (Machine.pauseResumeCycle dk.1 dk.2) =
        ⟨(Machine.runEvents ⟨s, n0⟩ (Machine.pauseResumeCycle dk.1 dk.2)).st,
         (Machine.runEvents ⟨s, n0⟩ (Machine.pauseResumeCycle dk.1 dk.2)).nowMs⟩ := rfl
    rw [hmid, hcyc.2.2.2.2.2]
    have ih' := ih (Machine.runEvents ⟨s, n0⟩ (Machine.pauseResumeCycle dk.1 dk.2)).st
      (n0 + dk.1) hcyc.2.1 (by rw [hcyc.1]; simp at hsum ⊢; omega)
    refine ⟨?_, ih'.2.1, ?_⟩
    · rw [ih'.1, hcyc.1]
      simp
      omega
    · rw [ih'.2.2]
      simp
      omega

namespace Machine

/-- Switching to a fresh kind after an operation leaves the new active
entry not running and tears down the interval; packaged for reuse in the
reachability induction. -/
theorem changeTimerMode_ne_inv (s : CompState) (m : Mode) (h : ¬(m = s.timerMode)) :
    (((changeTimerMode s m).timerStates.get (changeTimerMode s m).timerMode).isActive
        = (changeTimerMode s m).isActive) ∧
    ((changeTimerMode s m).intervalActive = true →
        (changeTimerMode s m).isActive = true) := by
  have hf := changeTimerMode_ne_fields s m h
  constructor
  · rw [hf.1, changeTimerMode_ne_get_self s m h, hf.2.2.1]
  · intro hcon
    rw [hf.2.2.2.1] at hcon
    exact absurd hcon (by simp)

/-- A freshly mounted component is paused with its active entry paused and
no interval. -/
theorem mount_inv (L : SavedRecord) (p : Mode) (stg : Settings) :
    (((mount L p stg).timerStates.get (mount L p stg).timerMode).isActive
        = (mount L p stg).isActive) ∧
    ((mount L p stg).intervalActive = true → (mount L p stg).isActive = true) := by
  constructor
  · by_cases ha : (L.timerStates.get p).isActive = true
    · simp [mount, ha, get_set_same]
    · have ha' : (L.timerStates.get p).isActive = false := by
        revert ha
        cases (L.timerStates.get p).isActive <;> simp
      simp [mount, ha', settingsStatesUpdate_isActive]
  · intro hcon
    rw [show (mount L p stg).intervalActive = false from rfl] at hcon
    exact absurd hcon (by simp)

end Machine

/-- C7 counterexample: Start(Focus) at 1500 s, five delivered ticks
(displayed 1495 s), SwitchActive(ShortBreak), SwitchActive(Focus): the
result is not running, but its remaining time is the full 1500 s rather
than 1495 s - the [timerMode] effect never writes the outgoing displayed
time into the per-kind store, which still holds the snapshot taken when the
running flag last changed, so the progress since Start is discarded. -/
theorem c7_switch_loses_progress_counterexample :
    Machine.c7Final.isActive = false ∧
    Machine.c7Final.timeRemaining = 1500 ∧
    Machine.c7Final.timerMode = Machine.Mode.pomodoro ∧
    (Machine.tickN (Machine.toggleTimer Machine.c7Start) 5).timeRemaining = 1495 ∧
    (1500 : Nat) ≠ 1500 - 5 := by
  decide

/-- C7 amended: from any paused state, Start followed by k delivered ticks,
a switch to a different kind and a switch back yields a slot that is not
running and whose remaining time equals the value it had when Start was
pressed - the per-kind store is only written when the running flag changes,
so the k ticks of progress are discarded by the in-memory round trip
(persistence writes do track the live value, but switching does not reload
them); switching to the kind already active is a no-op by construction of
the [timerMode] effect, which only runs when the prop value changes. -/
theorem c7_switch_restores_start_value (s : Machine.CompState) (m : Machine.Mode)
    (k : Nat) (hpause : s.isActive = false) (hne : ¬(m = s.timerMode))
    (hk : k + 1 ≤ s.timeRemaining) :
    (Machine.changeTimerMode
        (Machine.changeTimerMode (Machine.tickN (Machine.toggleTimer s) k) m)
        s.timerMode).isActive = false ∧
    (Machine.changeTimerMode
        (Machine.changeTimerMode (Machine.tickN (Machine.toggleTimer s) k) m)
        s.timerMode).timeRemaining = s.timeRemaining := by
  have hstart : (Machine.toggleTimer s).isActive = true ∧
      (Machine.toggleTimer s).intervalActive = true ∧
      (Machine.toggleTimer s).timeRemaining = s.timeRemaining ∧
      (Machine.toggleTimer s).timerMode = s.timerMode ∧
      (Machine.toggleTimer s).timerStates.get s.timerMode
          = ⟨s.timeRemaining, true⟩ := by
    refine ⟨by simp [Machine.toggleTimer, hpause], ?_, rfl, rfl, ?_⟩
    · simp [Machine.toggleTimer, hpause]
      omega
    · show ((s.timerStates.set s.timerMode _).get s.timerMode) = _
      rw [Machine.get_set_same]
      simp [hpause]
  have hticks := Machine.tickN_run k (Machine.toggleTimer s) hstart.1 hstart.2.1
    (by rw [hstart.2.2.1]; omega)
  set s2 := Machine.tickN (Machine.toggleTimer s) k with hs2
  have hmode2 : s2.timerMode = s.timerMode := by rw [hticks.2.2.2.1, hstart.2.2.2.1]
  have hne2 : ¬(m = s2.timerMode) := by rw [hmode2]; exact hne
  have hsw1 := Machine.changeTimerMode_ne_fields s2 m hne2
  set s3 := Machine.changeTimerMode s2 m with hs3
  have hmode3 : s3.timerMode = m := hsw1.1
  have hne3 : ¬(s.timerMode = s3.timerMode) := by
    rw [hmode3]
    intro hcon
    exact hne hcon.symm
  have hsw2 := Machine.changeTimerMode_ne_fields s3 s.timerMode hne3
  refine ⟨hsw2.2.2.1, ?_⟩
  rw [hsw2.2.1]
  have hpres : s3.timerStates.get s.timerMode = s2.timerStates.get s.timerMode := by
    rw [hs3]
    exact Machine.changeTimerMode_ne_get_other s2 m s.timerMode hne2
      (fun hcon => hne hcon.symm)
  rw [hpres, hticks.2.2.2.2.1, hstart.2.2.2.2]

/-- C7 witness: the amended statement at the concrete reset state with five
ticks and a round trip through ShortBreak: not running, remaining 1500. -/
theorem c7_switch_restores_start_value_witness :
    (Machine.changeTimerMode
        (Machine.changeTimerMode (Machine.tickN (Machine.toggleTimer Machine.c7Start) 5)
          .shortBreak)
        Machine.c7Start.timerMode).isActive = false ∧
    (Machine.changeTimerMode
        (Machine.changeTimerMode (Machine.tickN (Machine.toggleTimer Machine.c7Start) 5)
          .shortBreak)
        Machine.c7Start.timerMode).timeRemaining = Machine.c7Start.timeRemaining := by
  exact c7_switch_restores_start_value Machine.c7Start .shortBreak 5 rfl
    (by decide) (by decide)

/-- C4 counterexample: the run Start(Focus), Switch(ShortBreak),
Start(ShortBreak) is reachable from first use, yet it leaves BOTH the
pomodoro and the shortBreak entries with isActive = true - the pomodoro
flag set when Focus was started is never cleared on switch - while the
active kind is ShortBreak; two slots carry the running flag and one of
them is not the active kind. -/
theorem c4_two_slots_running_counterexample :
    Machine.Reach Machine.defaultLiveSettings .pomodoro Machine.c4TwoFlags ∧
    Machine.c4TwoFlags.timerStates.pomodoro.isActive = true ∧
    Machine.c4TwoFlags.timerStates.shortBreak.isActive = true ∧
    Machine.c4TwoFlags.timerMode = Machine.Mode.shortBreak := by
  refine ⟨?_, by decide, by decide, by decide⟩
  exact Machine.Reach.toggle (Machine.Reach.switch _ (Machine.Reach.toggle Machine.Reach.init))

/-- C4 amended: in every state reachable from first use through start,
pause, reset, switch-mode, settings-change, tick and persistence
round-trip operations, the ACTIVE kind's stored flag always equals the
engine's running flag, and a live interval implies the engine is running -
so at most one timer actually ticks, and it is the active kind's; but slots
of previously running kinds may retain a stale true flag, so the stored
per-kind flags are not mutually exclusive. -/
theorem c4_active_slot_flag_invariant (settings₀ : Machine.Settings) (p₀ : Machine.Mode)
    (s : Machine.CompState) (h : Machine.Reach settings₀ p₀ s) :
    ((s.timerStates.get s.timerMode).isActive = s.isActive) ∧
    (s.intervalActive = true → s.isActive = true) := by
  induction h with
  | init => exact Machine.mount_inv _ _ _
  | @toggle s _ _ =>
    constructor
    · show ((s.timerStates.set s.timerMode _).get s.timerMode).isActive = _
      rw [Machine.get_set_same]
      rfl
    · intro hcon
      exact (Bool.and_eq_true _ _ |>.mp hcon).1
  | @reset s _ ih =>
    refine ⟨?_, fun hcon => absurd hcon (by simp [Machine.resetTimer])⟩
    by_cases hw : s.isActive = true
    · simp [Machine.resetTimer, hw, Machine.get_set_same]
    · have hw' : s.isActive = false := by revert hw; cases s.isActive <;> simp
      simp only [Machine.resetTimer, hw', if_false, Bool.false_eq_true]
      show (s.timerStates.get s.timerMode).isActive = false
      rw [ih.1, hw']
  | @switch s m _ ih =>
    by_cases hm : m = s.timerMode
    · rw [show Machine.changeTimerMode s m = s from by simp [Machine.changeTimerMode, hm]]
      exact ih
    · exact Machine.changeTimerMode_ne_inv s m hm
  | @tickEv s _ ih =>
    rcases htk : Machine.tickStep s with _ | ⟨s', evs⟩
    · rw [show Machine.tick s = s from by simp [Machine.tick, htk]]
      exact ih
    · rw [show Machine.tick s = s' from by simp [Machine.tick, htk]]
      by_cases hint : s.intervalActive = true
      · have hact : s.isActive = true := ih.2 hint
        have hintf : ¬(s.intervalActive = false) := by simp [hint]
        by_cases hrem : s.timeRemaining ≤ 1
        · rw [Machine.tickStep, if_neg hintf, if_pos hrem] at htk
          rw [Option.some.injEq, Prod.mk.injEq] at htk
          rw [← htk.1]
          by_cases hP : s.timerMode = Machine.Mode.pomodoro
          · by_cases hmod :
                (s.completedPomodoros + 1) % s.settings.longBreakInterval = 0 <;>
              · refine Machine.changeTimerMode_ne_inv _ _ ?_
                simp [hP, hmod]
          · refine Machine.changeTimerMode_ne_inv _ _ ?_
            simp [hP]
            intro hcon
            exact hP hcon.symm
        · rw [Machine.tickStep, if_neg hintf, if_neg hrem] at htk
          rw [Option.some.injEq, Prod.mk.injEq] at htk
          rw [← htk.1]
          refine ⟨?_, ?_⟩
          · show (s.timerStates.get s.timerMode).isActive = s.isActive
            exact ih.1
          · intro hcon
            exact (Bool.and_eq_true _ _ |>.mp hcon).1
      · have hintf : s.intervalActive = false := by revert hint; cases s.intervalActive <;> simp
        rw [Machine.tickStep, if_pos hintf] at htk
        cases htk
  | @settings s stg _ ih =>
    refine ⟨?_, ?_⟩
    · show ((Machine.settingsStatesUpdate stg s.timerStates).get s.timerMode).isActive
          = s.isActive
      rw [Machine.settingsStatesUpdate_isActive]
      exact ih.1
    · intro hcon
      exact (Bool.and_eq_true _ _ |>.mp hcon).1
  | @reload s p e _ _ => exact Machine.mount_inv _ _ _

/-- C4 witness: the amended invariant at the initial state. -/
theorem c4_active_slot_flag_invariant_witness :
    (((Machine.initState Machine.defaultLiveSettings .pomodoro).timerStates.get
        (Machine.initState Machine.defaultLiveSettings .pomodoro).timerMode).isActive
      = (Machine.initState Machine.defaultLiveSettings .pomodoro).isActive) ∧
    ((Machine.initState Machine.defaultLiveSettings .pomodoro).intervalActive = true →
      (Machine.initState Machine.defaultLiveSettings .pomodoro).isActive = true) :=
  c4_active_slot_flag_invariant Machine.defaultLiveSettings .pomodoro _ Machine.Reach.init

/-- C2 witness: the amended statement applied to the paused fresh Focus
slot over two cycles with tick counts 2 and 3: remaining 1495, paused, and
the wall clock moved by the sum of the advances. -/
theorem c2_remaining_counts_ticks_witness :
    (Machine.runEvents ⟨Machine.freshFocusPaused, 0⟩
        (Machine.pauseResumeTrace [(1000, 2), (4000, 3)])).st.timeRemaining = 1495 ∧
    (Machine.runEvents ⟨Machine.freshFocusPaused, 0⟩
        (Machine.pauseResumeTrace [(1000, 2), (4000, 3)])).st.isActive = false ∧
    (Machine.runEvents ⟨Machine.freshFocusPaused, 0⟩
        (Machine.pauseResumeTrace [(1000, 2), (4000, 3)])).nowMs = 5000 := by
  have h := c2_remaining_counts_ticks Machine.freshFocusPaused 0 [(1000, 2), (4000, 3)]
    rfl (by decide)
  simpa using h

/-- C9: every per-kind entry of a getTimerState result whose isActive flag
is not true has its timeRemaining forced to the full configured duration
(settings minutes times 60) for that kind - any partial progress stored for
a paused slot is discarded by this loader. -/
theorem c9_inactive_slots_full_duration :
    ∀ (stored : Storage.Stored Storage.TimerStateJson) (currentMode : String)
      (settings : Storage.Settings) (k : Machine.Mode),
      (Storage.resultSlot (Storage.getTimerState stored currentMode settings) k).isActive
          = some true ∨
      (Storage.resultSlot (Storage.getTimerState stored currentMode settings) k).timeRemaining
          = some (Storage.settingsDuration settings k) := by
  intro stored currentMode settings k
  rcases stored with _ | _ | p
  · cases k <;>
      simp [Storage.getTimerState, Storage.createFreshTimerState, Storage.resultSlot,
        Storage.slotOf, Storage.settingsDuration]
  · cases k <;>
      simp [Storage.getTimerState, Storage.createFreshTimerState, Storage.resultSlot,
        Storage.slotOf, Storage.settingsDuration]
  · obtain ⟨tr, ia, cp, ats, tm, od, tsopt⟩ := p
    rcases tsopt with _ | ⟨po, sb, lb⟩
    · cases k <;>
        simp [Storage.getTimerState, Storage.createFreshTimerState, Storage.resultSlot,
          Storage.slotOf, Storage.settingsDuration] <;>
        split_ifs <;> simp
    · rcases po with _ | po
      case none =>
        cases k <;>
          simp [Storage.getTimerState, Storage.createFreshTimerState, Storage.resultSlot,
            Storage.slotOf, Storage.settingsDuration] <;>
          split_ifs <;> simp [Storage.slotOf]
      case some =>
        rcases sb with _ | sb
        case none =>
          cases k <;>
            simp [Storage.getTimerState, Storage.createFreshTimerState, Storage.resultSlot,
              Storage.slotOf, Storage.settingsDuration] <;>
            split_ifs <;> simp [Storage.slotOf]
        case some =>
          rcases lb with _ | lb
          case none =>
            cases k <;>
              simp [Storage.getTimerState, Storage.createFreshTimerState, Storage.resultSlot,
                Storage.slotOf, Storage.settingsDuration] <;>
              split_ifs <;> simp [Storage.slotOf]
          case some =>
            by_cases hpo : po.isActive = some true <;>
            by_cases hsb : sb.isActive = some true <;>
            by_cases hlb : lb.isActive = some true <;>
            by_cases hmain : currentMode = "pomodoro" ∧ ¬(ia = some true) <;>
            cases k <;>
              simp [Storage.getTimerState, Storage.resultSlot, Storage.slotOf,
                Storage.settingsDuration, hpo, hsb, hlb, hmain]

/-- C10: fixHardcodedPomodoroTime returns true exactly when it finds the
value 900 in the stored pomodoro slot remaining, or - when the stored mode
is pomodoro - in the top-level timeRemaining or originalDuration; each such
occurrence is rewritten to 1500 in the record it persists, other fields are
untouched, nothing is written when nothing matched, and absent or
unparseable storage yields (false, no write). Consequently a legitimately
configured 15-minute pomodoro at full duration is silently rewritten to 25
minutes. -/
theorem c10_fix_hardcoded_pomodoro :
    (∀ p : Storage.TimerStateJson,
      ((Storage.fixHardcodedPomodoroTime (.parsed p)).1 = true ↔
        (Storage.pomodoroSlotRemaining p = some 900 ∨
          (p.timerMode = some "pomodoro" ∧
            (p.timeRemaining = some 900 ∨ p.originalDuration = some 900)))) ∧
      (Storage.fixHardcodedPomodoroTime (.parsed p)).2.map (·.timerMode) =
        (if (Storage.fixHardcodedPomodoroTime (.parsed p)).1 = true
         then some p.timerMode else none) ∧
      (Storage.fixHardcodedPomodoroTime (.parsed p)).2.map (·.timeRemaining) =
        (if (Storage.fixHardcodedPomodoroTime (.parsed p)).1 = true
         then some (if p.timerMode = some "pomodoro" ∧ p.timeRemaining = some 900
                    then some 1500 else p.timeRemaining)
         else none) ∧
      (Storage.fixHardcodedPomodoroTime (.parsed p)).2.map (·.originalDuration) =
        (if (Storage.fixHardcodedPomodoroTime (.parsed p)).1 = true
         then some (if p.timerMode = some "pomodoro" ∧ p.originalDuration = some 900
                    then some 1500 else p.originalDuration)
         else none) ∧
      (Storage.fixHardcodedPomodoroTime (.parsed p)).2.map Storage.pomodoroSlotRemaining =
        (if (Storage.fixHardcodedPomodoroTime (.parsed p)).1 = true
         then some (if Storage.pomodoroSlotRemaining p = some 900
                    then some 1500 else Storage.pomodoroSlotRemaining p)
         else none)) ∧
    Storage.fixHardcodedPomodoroTime .absent = (false, none) ∧
    Storage.fixHardcodedPomodoroTime .malformed = (false, none) ∧
    Storage.fixHardcodedPomodoroTime (.parsed Storage.legitFifteenMinuteState) =
      (true, some Storage.legitFifteenMinuteRewritten) := by
  refine ⟨?_, rfl, rfl, by decide⟩
  intro p
  obtain ⟨tr, ia, cp, ats, tm, od, tsopt⟩ := p
  rcases tsopt with _ | ⟨po, sb, lb⟩
  · by_cases h2 : tm = some "pomodoro" <;>
    by_cases h3 : tr = some 900 <;>
    by_cases h4 : od = some 900 <;>
    simp_all [Storage.fixHardcodedPomodoroTime, Storage.pomodoroSlotRemaining]
  · rcases po with _ | ⟨porem, poact⟩
    · by_cases h2 : tm = some "pomodoro" <;>
      by_cases h3 : tr = some 900 <;>
      by_cases h4 : od = some 900 <;>
      simp_all [Storage.fixHardcodedPomodoroTime, Storage.pomodoroSlotRemaining]
    · by_cases h1 : porem = some 900 <;>
      by_cases h2 : tm = some "pomodoro" <;>
      by_cases h3 : tr = some 900 <;>
      by_cases h4 : od = some 900 <;>
      simp_all [Storage.fixHardcodedPomodoroTime, Storage.pomodoroSlotRemaining]
